import Mathlib

/-!
Verification of the growth/equilibrium engine of Fabric-of-Space-Y.

The development shallowly embeds the two core source files
(`src/js/PhysicsGrowthSystem.js` and `src/js/PhysicsExpansion.js`, plus the
optimized variant `OptimizedPhysicsExpansion.js`) into Lean:

* numbers are modelled exactly: the pieces of the code that use only field
  arithmetic and comparisons are stated generically over a linear ordered
  field (instantiated at `ℚ` for decidable checks), while the pieces that
  need `Math.sqrt` / `Math.pow` are modelled over `ℝ` with `Real.sqrt` and
  real exponentiation;
* JavaScript `Map`s keyed by cell index become association lists
  `List (ℕ × _)` (insertion order preserved, unique keys) or total functions
  `ℕ → _` with the zero default that the code supplies via `|| 0`;
* the in-place force/velocity accumulation of `applyPhysicsStep` becomes an
  explicit fold threading the accumulator state.
-/

namespace FabricOfSpace

/-- A 3-vector (position, velocity or force), per the `{x, y, z}` /
`[x, y, z]` triples of the source. -/
abbrev Vec3 (K : Type) := K × K × K

/-- Growth modes, from the `mode` switch of
`PhysicsGrowthSystem.calculateGrowthSignals`. -/
inductive Mode where
  | more_grow_only
  | more_grow_both
  | more_shrink_only
  | more_shrink_both
deriving DecidableEq

/-- Step modes of `PhysicsGrowthSystem.config.stepMode`. -/
inductive StepMode where
  | manual
  | auto
  | equilibrium
  | continuous
deriving DecidableEq

/-! ## GrowthSignalCalculator (`PhysicsGrowthSystem.calculateGrowthSignals`) -/

/-- The `switch (this.config.mode)` classification of one score against the
threshold: returns the `(shouldGrow, signalMagnitude)` pair.  Both variables
are initialised to `(false, 0)` and only overwritten inside the taken
branches, exactly as in the source. -/
def growthDecision {K : Type} [LinearOrderedField K]
    (mode : Mode) (threshold score : K) : Bool × K :=
  match mode with
  | .more_grow_only =>
      if threshold < score then (true, score - threshold) else (false, 0)
  | .more_grow_both =>
      if threshold < score then (true, score - threshold)
      else if score < threshold then (false, threshold - score)
      else (false, 0)
  | .more_shrink_only =>
      if threshold < score then (false, score - threshold) else (false, 0)
  | .more_shrink_both =>
      if threshold < score then (false, score - threshold)
      else if score < threshold then (true, threshold - score)
      else (false, 0)

/-- The key set of the `growthSignals` map built by
`calculateGrowthSignals`: index `i` is inserted iff its
`signalMagnitude > 0` (the `if (signalMagnitude > 0)` guard around
`growthSignals.set(i, rawSignal)`).  A missing score reads as `0` via
`cellScores[i] || 0`. -/
def growthSignalKeys {K : Type} [LinearOrderedField K]
    (mode : Mode) (threshold : K) (cellScores : List K) : List ℕ :=
  (List.range cellScores.length).filter
    (fun i => decide (0 < (growthDecision mode threshold (cellScores.getD i 0)).2))

/-- The running maximum `maxSignal = Math.max(maxSignal, Math.abs(rawSignal))`
accumulated over the signal map, starting from `0`. -/
def maxAbsSignal {K : Type} [LinearOrderedField K]
    (signals : List (ℕ × K)) : K :=
  signals.foldl (fun m p => max m |p.2|) 0

/-- The final scaling pass of `calculateGrowthSignals`: if
`this.config.normalize && maxSignal > 0` every signal is replaced by
`(signal / maxSignal) * baseGrowthRate`, otherwise by
`signal * baseGrowthRate`. -/
def scaleSignals {K : Type} [LinearOrderedField K]
    (normalize : Bool) (baseGrowthRate : K) (signals : List (ℕ × K)) :
    List (ℕ × K) :=
  if normalize = true ∧ 0 < maxAbsSignal signals then
    signals.map (fun p => (p.1, p.2 / maxAbsSignal signals * baseGrowthRate))
  else
    signals.map (fun p => (p.1, p.2 * baseGrowthRate))

/-! ## NeighborGraphBuilder (`PhysicsExpansion.rebuildNeighborCache`) -/

/-- `countSharedVertices`: for each vertex of `cell1`, count it once if some
vertex of `cell2` matches it componentwise within the fixed tolerance
`0.0001` (the inner loop `break`s at the first match, hence `countP`/`any`). -/
def countSharedVertices {K : Type} [LinearOrderedField K]
    (cell1 cell2 : List (Vec3 K)) : ℕ :=
  cell1.countP (fun v1 => cell2.any (fun v2 =>
    decide (|v1.1 - v2.1| < 1 / 10000 ∧ |v1.2.1 - v2.2.1| < 1 / 10000 ∧
      |v1.2.2 - v2.2.2| < 1 / 10000)))

/-- The double `forEach` of `rebuildNeighborCache`: every index pair
`(index1, index2)` with `index1 < index2` whose cells share at least two
vertices inserts `index2` into `index1`'s neighbor set and vice versa.  The
list records those insertions in program order. -/
def neighborInsertions {K : Type} [LinearOrderedField K]
    (voronoiCells : List (List (Vec3 K))) : List (ℕ × ℕ) :=
  (List.range voronoiCells.length).flatMap (fun index1 =>
    (List.range voronoiCells.length).flatMap (fun index2 =>
      if index1 ≥ index2 then []
      else if 2 ≤ countSharedVertices (voronoiCells.getD index1 [])
          (voronoiCells.getD index2 []) then
        [(index1, index2), (index2, index1)]
      else []))

/-- The neighbor set of cell `i` in the rebuilt cache (as a list, in
insertion order; the double loop never inserts a pair twice). -/
def neighborList {K : Type} [LinearOrderedField K]
    (voronoiCells : List (List (Vec3 K))) (i : ℕ) : List ℕ :=
  (neighborInsertions voronoiCells).filterMap
    (fun p => if p.1 = i then some p.2 else none)

/-- Membership in the insertion list of the rebuilt neighbor cache. -/
lemma mem_neighborInsertions {K : Type} [LinearOrderedField K]
    (cells : List (List (Vec3 K))) (a b : ℕ) :
    (a, b) ∈ neighborInsertions cells ↔
      a < cells.length ∧ b < cells.length ∧
        ((a < b ∧ 2 ≤ countSharedVertices (cells.getD a []) (cells.getD b [])) ∨
         (b < a ∧ 2 ≤ countSharedVertices (cells.getD b []) (cells.getD a []))) := by
  constructor
  · intro h
    simp only [neighborInsertions, List.mem_flatMap, List.mem_range] at h
    obtain ⟨i1, hi1, i2, hi2, hmem⟩ := h
    split_ifs at hmem with h1 h2
    · simp at hmem
    · simp only [List.mem_cons, List.mem_singleton, Prod.mk.injEq] at hmem
      rcases hmem with ⟨ha, hb⟩ | ⟨⟨ha, hb⟩ | hfalse⟩
      · subst ha; subst hb
        exact ⟨hi1, hi2, Or.inl ⟨Nat.lt_of_not_le h1, h2⟩⟩
      · subst ha; subst hb
        exact ⟨hi2, hi1, Or.inr ⟨Nat.lt_of_not_le h1, h2⟩⟩
      · simp at hfalse
    · simp at hmem
  · rintro ⟨ha, hb, ⟨hab, hcnt⟩ | ⟨hba, hcnt⟩⟩
    · simp only [neighborInsertions, List.mem_flatMap, List.mem_range]
      refine ⟨a, ha, b, hb, ?_⟩
      rw [if_neg (by omega), if_pos hcnt]
      simp
    · simp only [neighborInsertions, List.mem_flatMap, List.mem_range]
      refine ⟨b, hb, a, ha, ?_⟩
      rw [if_neg (by omega), if_pos hcnt]
      simp

/-- A cell's cached neighbor list holds `j` exactly when the pair insertion
`(i, j)` was performed. -/
lemma mem_neighborList {K : Type} [LinearOrderedField K]
    (cells : List (List (Vec3 K))) (i j : ℕ) :
    j ∈ neighborList cells i ↔ (i, j) ∈ neighborInsertions cells := by
  simp only [neighborList, List.mem_filterMap]
  constructor
  · rintro ⟨⟨a, b⟩, hmem, hif⟩
    by_cases h : a = i
    · subst h
      rw [if_pos rfl] at hif
      obtain rfl : b = j := by simpa using hif
      exact hmem
    · simp [if_neg h] at hif
  · intro h
    exact ⟨(i, j), h, by simp⟩

/-- C1: For every score sequence, threshold and mode,
`calculateGrowthSignals` classifies each cell exactly per the mode table:
in grow-only, `score > threshold` gives grow with magnitude
`score − threshold` and `score < threshold` is inactive; in grow-both,
`score > threshold` gives grow with magnitude `score − threshold` and
`score < threshold` gives shrink with magnitude `threshold − score`; in
shrink-only, `score > threshold` gives shrink with magnitude
`score − threshold` and `score < threshold` is inactive; in shrink-both,
`score > threshold` gives shrink with magnitude `score − threshold` and
`score < threshold` gives grow with magnitude `threshold − score`; and
`score == threshold` is always inactive (magnitude `0`, excluded from the
output map) in every mode.  Membership in the output map is exactly
positivity of the computed magnitude. -/
theorem c1_mode_table {K : Type} [LinearOrderedField K] (threshold score : K) :
    (threshold < score →
      growthDecision Mode.more_grow_only threshold score = (true, score - threshold) ∧
      growthDecision Mode.more_grow_both threshold score = (true, score - threshold) ∧
      growthDecision Mode.more_shrink_only threshold score = (false, score - threshold) ∧
      growthDecision Mode.more_shrink_both threshold score = (false, score - threshold)) ∧
    (score < threshold →
      (growthDecision Mode.more_grow_only threshold score).2 = 0 ∧
      growthDecision Mode.more_grow_both threshold score = (false, threshold - score) ∧
      (growthDecision Mode.more_shrink_only threshold score).2 = 0 ∧
      growthDecision Mode.more_shrink_both threshold score = (true, threshold - score)) ∧
    (score = threshold → ∀ mode, (growthDecision mode threshold score).2 = 0) ∧
    (∀ mode (cellScores : List K) (i : ℕ), cellScores.getD i 0 = threshold →
      i ∉ growthSignalKeys mode threshold cellScores) ∧
    (∀ mode (cellScores : List K) (i : ℕ), i < cellScores.length →
      (i ∈ growthSignalKeys mode threshold cellScores ↔
        0 < (growthDecision mode threshold (cellScores.getD i 0)).2)) := by
  have hzero : ∀ (t : K) (mode : Mode), (growthDecision mode t t).2 = 0 := by
    intro t mode
    cases mode <;> simp [growthDecision]
  refine ⟨?_, ?_, ?_, ?_, ?_⟩
  · intro h
    have h' : ¬ score < threshold := not_lt.mpr h.le
    refine ⟨?_, ?_, ?_, ?_⟩ <;> simp [growthDecision, h, h']
  · intro h
    have h' : ¬ threshold < score := not_lt.mpr h.le
    refine ⟨?_, ?_, ?_, ?_⟩ <;> simp [growthDecision, h, h']
  · intro h mode
    rw [h]
    exact hzero threshold mode
  · intro mode cellScores i h
    simp only [growthSignalKeys, List.mem_filter, decide_eq_true_eq, h]
    rw [hzero threshold mode]
    simp
  · intro mode cellScores i hi
    simp [growthSignalKeys, List.mem_filter, List.mem_range, hi]

/-- Witness for `c1_mode_table` at threshold 5 over `ℚ`: score 7 grows with
magnitude 2 under grow-both, and a score equal to the threshold is excluded
from the output map. -/
theorem c1_mode_table_witness :
    growthDecision Mode.more_grow_both (5 : ℚ) 7 = (true, 7 - 5) ∧
    2 ∉ growthSignalKeys Mode.more_grow_both (5 : ℚ) [7, 3, 5] :=
  ⟨((c1_mode_table (5 : ℚ) 7).1 (by norm_num)).2.1,
   (c1_mode_table (5 : ℚ) 7).2.2.2.1 Mode.more_grow_both [7, 3, 5] 2 (by decide)⟩

/-- C2: if `normalize` is set (and some active signal is non-zero, the
code's `maxSignal > 0` guard), every output growth rate is the raw signal
divided by the maximum absolute raw signal and multiplied by
`baseGrowthRate`; otherwise it is the raw signal times `baseGrowthRate`.
In particular raw signals `[2, −8, 4]` with `normalize = true` and
`baseGrowthRate = 5` yield `[5/4, −5, 5/2]`, i.e. `[1.25, −5, 2.5]`. -/
theorem c2_normalization {K : Type} [LinearOrderedField K]
    (baseGrowthRate : K) (signals : List (ℕ × K)) :
    (0 < maxAbsSignal signals →
      scaleSignals true baseGrowthRate signals =
        signals.map (fun p => (p.1, p.2 / maxAbsSignal signals * baseGrowthRate))) ∧
    scaleSignals false baseGrowthRate signals =
      signals.map (fun p => (p.1, p.2 * baseGrowthRate)) ∧
    scaleSignals true (5 : K) [(0, 2), (1, -8), (2, 4)] =
      [(0, 5 / 4), (1, -5), (2, 5 / 2)] := by
  refine ⟨?_, ?_, ?_⟩
  · intro h
    rw [scaleSignals, if_pos ⟨rfl, h⟩]
  · rw [scaleSignals, if_neg (by simp)]
  · have hmax : maxAbsSignal ([(0, 2), (1, -8), (2, 4)] : List (ℕ × K)) = 8 := by
      simp only [maxAbsSignal, List.foldl]
      rw [abs_of_nonneg (by norm_num : (0 : K) ≤ 2),
        abs_of_nonpos (by norm_num : (-8 : K) ≤ 0), neg_neg,
        abs_of_nonneg (by norm_num : (0 : K) ≤ 4)]
      rw [max_eq_right (by norm_num : (0 : K) ≤ 2),
        max_eq_right (by norm_num : (2 : K) ≤ 8),
        max_eq_left (by norm_num : (4 : K) ≤ 8)]
    rw [scaleSignals, if_pos ⟨rfl, by rw [hmax]; norm_num⟩]
    simp only [List.map, hmax]
    norm_num

/-- Witness for `c2_normalization` over `ℚ`: the normalize branch applied to
the concrete signal list `[(0, 2), (1, −8), (2, 4)]`. -/
theorem c2_normalization_witness :
    scaleSignals true (3 : ℚ) [(0, 2), (1, -8), (2, 4)] =
      ([(0, 2), (1, -8), (2, 4)] : List (ℕ × ℚ)).map
        (fun p => (p.1, p.2 / maxAbsSignal [(0, 2), (1, -8), (2, 4)] * 3)) :=
  (c2_normalization (3 : ℚ) [(0, 2), (1, -8), (2, 4)]).1 (by decide)

/-- C3: the neighbor relation produced by `rebuildNeighborCache` is
symmetric — `i` is in `j`'s neighbor set iff `j` is in `i`'s — and a pair
is declared neighbors exactly when the two cells share at least two polygon
vertices within the fixed tolerance (the shared-vertex count the code
evaluates for the index-ordered pair). -/
theorem c3_neighbor_symmetry {K : Type} [LinearOrderedField K]
    (cells : List (List (Vec3 K))) (i j : ℕ) :
    (j ∈ neighborList cells i ↔ i ∈ neighborList cells j) ∧
    (i < j → j < cells.length →
      (j ∈ neighborList cells i ↔
        2 ≤ countSharedVertices (cells.getD i []) (cells.getD j []))) := by
  constructor
  · rw [mem_neighborList, mem_neighborList, mem_neighborInsertions,
      mem_neighborInsertions]
    tauto
  · intro hij hj
    rw [mem_neighborList, mem_neighborInsertions]
    constructor
    · rintro ⟨-, -, ⟨-, hcnt⟩ | ⟨hji, -⟩⟩
      · exact hcnt
      · omega
    · intro hcnt
      exact ⟨by omega, hj, Or.inl ⟨hij, hcnt⟩⟩

/-- A concrete two-cell tessellation over `ℚ` in which the two cells share
exactly two polygon vertices. -/
def twoCellsQ : List (List (Vec3 ℚ)) :=
  [[(0, 0, 0), (0, 1, 0)], [(0, 0, 0), (0, 1, 0)]]

/-- Witness for `c3_neighbor_symmetry` over `ℚ`: two concrete cells sharing
two vertices are mutual neighbors. -/
theorem c3_neighbor_symmetry_witness :
    (1 ∈ neighborList twoCellsQ 0 ↔ 0 ∈ neighborList twoCellsQ 1) ∧
    (1 ∈ neighborList twoCellsQ 0 ↔
      2 ≤ countSharedVertices (twoCellsQ.getD 0 []) (twoCellsQ.getD 1 [])) :=
  ⟨(c3_neighbor_symmetry twoCellsQ 0 1).1,
   (c3_neighbor_symmetry twoCellsQ 0 1).2 (by decide) (by decide)⟩

/-! ## ForceField (`PhysicsExpansion.calculateForce`) -/

/-- Positions, velocities and forces of the physics engine are real
3-vectors. -/
abbrev Pt := Vec3 ℝ

/-- The physics parameters set in the `PhysicsExpansion` constructor. -/
structure PhysicsParams where
  forceStrength : ℝ
  damping : ℝ
  maxForce : ℝ
  minDistance : ℝ

/-- The constructor defaults of `PhysicsExpansion`:
`forceStrength = 0.5`, `damping = 0.8`, `maxForce = 0.5`,
`minDistance = 0.01`. -/
def defaultParams : PhysicsParams :=
  { forceStrength := 0.5, damping := 0.8, maxForce := 0.5, minDistance := 0.01 }

/-- Euclidean magnitude of a 3-vector,
`Math.sqrt(x * x + y * y + z * z)`. -/
noncomputable def norm3 (v : Vec3 ℝ) : ℝ :=
  Real.sqrt (v.1 * v.1 + v.2.1 * v.2.1 + v.2.2 * v.2.2)

/-- `PhysicsExpansion.calculateForce`: direction `toPoint − fromPoint`,
distance guard against `minDistance`, inverse-square magnitude
`growthRate * forceStrength / dist²` clamped to `±maxForce` preserving sign
(`Math.sign(m) * Math.min(Math.abs(m), maxForce)`), scaled onto the
normalized direction. -/
noncomputable def calculateForce (prm : PhysicsParams)
    (fromPoint toPoint : Pt) (growthRate : ℝ) : Vec3 ℝ :=
  let dx := toPoint.1 - fromPoint.1
  let dy := toPoint.2.1 - fromPoint.2.1
  let dz := toPoint.2.2 - fromPoint.2.2
  let distance := Real.sqrt (dx * dx + dy * dy + dz * dz)
  if distance < prm.minDistance then (0, 0, 0)
  else
    let nx := dx / distance
    let ny := dy / distance
    let nz := dz / distance
    let forceMagnitude := growthRate * prm.forceStrength / (distance * distance)
    let clampedMagnitude :=
      Real.sign forceMagnitude * min |forceMagnitude| prm.maxForce
    (nx * clampedMagnitude, ny * clampedMagnitude, nz * clampedMagnitude)

/-- `Math.sign` never exceeds `1` in absolute value. -/
lemma abs_real_sign_le_one (x : ℝ) : |Real.sign x| ≤ 1 := by
  rcases lt_trichotomy x 0 with h | h | h
  · rw [Real.sign_of_neg h]; norm_num
  · rw [h, Real.sign_zero]; norm_num
  · rw [Real.sign_of_pos h]; norm_num

/-- On the positive x-axis at distance `d` past the guard, the force
magnitude is the absolute clamped magnitude. -/
lemma norm3_calculateForce_xaxis (prm : PhysicsParams) (g d : ℝ)
    (hd : 0 < d) (hguard : prm.minDistance ≤ d) :
    norm3 (calculateForce prm (0, 0, 0) (d, 0, 0) g) =
      |Real.sign (g * prm.forceStrength / (d * d)) *
        min (|g * prm.forceStrength| / (d * d)) prm.maxForce| := by
  have habs : |g * prm.forceStrength / (d * d)| =
      |g * prm.forceStrength| / (d * d) := by
    rw [abs_div, abs_of_pos (mul_pos hd hd)]
  simp only [calculateForce, sub_zero, mul_zero, zero_mul, add_zero,
    Real.sqrt_mul_self hd.le, zero_sub, zero_div]
  rw [if_neg (not_lt.mpr hguard)]
  rw [div_self hd.ne', one_mul, habs]
  simp only [norm3, zero_mul, mul_zero, add_zero, Real.sqrt_mul_self_eq_abs]

/-- C5: for every pair of positions and every growth rate, the force vector
returned by `calculateForce` has magnitude at most `maxForce` (given a
non-negative `maxForce`, as all configurations in the source use). -/
theorem c5_clamp_invariant (prm : PhysicsParams) (h : 0 ≤ prm.maxForce)
    (fromPoint toPoint : Pt) (g : ℝ) :
    norm3 (calculateForce prm fromPoint toPoint g) ≤ prm.maxForce := by
  simp only [calculateForce]
  split_ifs with hd
  · simpa [norm3] using h
  · set dx := toPoint.1 - fromPoint.1 with hdx
    set dy := toPoint.2.1 - fromPoint.2.1 with hdy
    set dz := toPoint.2.2 - fromPoint.2.2 with hdz
    set s := dx * dx + dy * dy + dz * dz with hs
    set d := Real.sqrt s with hdd
    set fm := g * prm.forceStrength / (d * d) with hfm
    set cm := Real.sign fm * min |fm| prm.maxForce with hcm
    have hs0 : 0 ≤ s := by
      rw [hs]
      exact add_nonneg (add_nonneg (mul_self_nonneg dx) (mul_self_nonneg dy))
        (mul_self_nonneg dz)
    have hdsq : d * d = s := Real.mul_self_sqrt hs0
    have key : dx / d * cm * (dx / d * cm) + dy / d * cm * (dy / d * cm) +
        dz / d * cm * (dz / d * cm) = s / (d * d) * (cm * cm) := by
      rw [hs]; ring
    have hratio : s / (d * d) ≤ 1 := by
      rw [hdsq]
      rcases eq_or_lt_of_le hs0 with h0 | h0
      · rw [← h0]; norm_num
      · rw [div_self h0.ne']
    have hmin0 : 0 ≤ min |fm| prm.maxForce := le_min (abs_nonneg _) h
    have hcmabs : |cm| ≤ prm.maxForce := by
      rw [hcm, abs_mul, abs_of_nonneg hmin0]
      calc |Real.sign fm| * min |fm| prm.maxForce
          ≤ 1 * min |fm| prm.maxForce :=
            mul_le_mul_of_nonneg_right (abs_real_sign_le_one fm) hmin0
        _ = min |fm| prm.maxForce := one_mul _
        _ ≤ prm.maxForce := min_le_right _ _
    have hcmsq : cm * cm ≤ prm.maxForce * prm.maxForce := by
      calc cm * cm = |cm| * |cm| := (abs_mul_abs_self cm).symm
        _ ≤ prm.maxForce * prm.maxForce :=
            mul_le_mul hcmabs hcmabs (abs_nonneg _) h
    have hbound : s / (d * d) * (cm * cm) ≤ prm.maxForce * prm.maxForce := by
      calc s / (d * d) * (cm * cm) ≤ 1 * (prm.maxForce * prm.maxForce) :=
            mul_le_mul hratio hcmsq (mul_self_nonneg cm) (by norm_num)
        _ = prm.maxForce * prm.maxForce := one_mul _
    calc norm3 (dx / d * cm, dy / d * cm, dz / d * cm)
        = Real.sqrt (s / (d * d) * (cm * cm)) := by rw [norm3, key]
      _ ≤ Real.sqrt (prm.maxForce * prm.maxForce) := Real.sqrt_le_sqrt hbound
      _ = |prm.maxForce| := Real.sqrt_mul_self_eq_abs _
      _ = prm.maxForce := abs_of_nonneg h

/-- Witness for `c5_clamp_invariant` with the default `PhysicsExpansion`
parameters at a concrete pair of points. -/
theorem c5_clamp_invariant_witness :
    (0 : ℝ) ≤ defaultParams.maxForce ∧
      norm3 (calculateForce defaultParams (0, 0, 0) (1, 0, 0) 7) ≤
        defaultParams.maxForce :=
  ⟨by norm_num [defaultParams],
   c5_clamp_invariant defaultParams (by norm_num [defaultParams])
     (0, 0, 0) (1, 0, 0) 7⟩

/-- C7: for every pair of positions whose distance is below `minDistance`
and every growth rate, `calculateForce` returns the zero force vector (the
degenerate-geometry guard; the division by `dist²` is never reached). -/
theorem c7_min_distance_guard (prm : PhysicsParams)
    (fromPoint toPoint : Pt) (g : ℝ)
    (h : Real.sqrt ((toPoint.1 - fromPoint.1) * (toPoint.1 - fromPoint.1) +
        (toPoint.2.1 - fromPoint.2.1) * (toPoint.2.1 - fromPoint.2.1) +
        (toPoint.2.2 - fromPoint.2.2) * (toPoint.2.2 - fromPoint.2.2)) <
      prm.minDistance) :
    calculateForce prm fromPoint toPoint g = (0, 0, 0) := by
  simp only [calculateForce]
  rw [if_pos h]

/-- Witness for `c7_min_distance_guard`: coincident points under the
default parameters produce zero force. -/
theorem c7_min_distance_guard_witness :
    calculateForce defaultParams (2, 3, 4) (2, 3, 4) 9 = (0, 0, 0) :=
  c7_min_distance_guard defaultParams (2, 3, 4) (2, 3, 4) 9
    (by norm_num [defaultParams, Real.sqrt_zero])

/-- C6 (counterexample): under the default parameters, growth rate `1` and
distances `1/10 < 1/5` both above `minDistance`, the clamp saturates at both
distances, so the force magnitude at the smaller distance is NOT strictly
greater — refuting strict inverse-square monotonicity as claimed. -/
theorem c6_counterexample :
    ¬ (norm3 (calculateForce defaultParams (0, 0, 0) ((1 : ℝ) / 5, 0, 0) 1) <
       norm3 (calculateForce defaultParams (0, 0, 0) ((1 : ℝ) / 10, 0, 0) 1)) := by
  rw [norm3_calculateForce_xaxis defaultParams 1 ((1 : ℝ) / 5)
      (by norm_num) (by norm_num [defaultParams]),
    norm3_calculateForce_xaxis defaultParams 1 ((1 : ℝ) / 10)
      (by norm_num) (by norm_num [defaultParams])]
  rw [Real.sign_of_pos (by norm_num [defaultParams] :
      (0 : ℝ) < 1 * defaultParams.forceStrength / ((1 : ℝ) / 5 * (1 / 5))),
    Real.sign_of_pos (by norm_num [defaultParams] :
      (0 : ℝ) < 1 * defaultParams.forceStrength / ((1 : ℝ) / 10 * (1 / 10)))]
  rw [min_eq_right (by rw [abs_of_pos (by norm_num [defaultParams])]; norm_num [defaultParams] :
      defaultParams.maxForce ≤ |1 * defaultParams.forceStrength| / ((1 : ℝ) / 5 * (1 / 5))),
    min_eq_right (by rw [abs_of_pos (by norm_num [defaultParams])]; norm_num [defaultParams] :
      defaultParams.maxForce ≤ |1 * defaultParams.forceStrength| / ((1 : ℝ) / 10 * (1 / 10)))]
  exact lt_irrefl _

/-- C6 (amended): for a fixed non-zero `g * forceStrength` and distances
`minDistance ≤ d1 < d2`, the force magnitude at `d1` is strictly greater
than at `d2` provided the unclamped magnitude at the nearer distance `d1`
does not exceed `maxForce` (outside that regime the clamp can make the two
magnitudes equal, as `c6_counterexample` shows). -/
theorem c6_inverse_square_monotone (prm : PhysicsParams) (g d1 d2 : ℝ)
    (hmin : 0 < prm.minDistance) (h1 : prm.minDistance ≤ d1) (h12 : d1 < d2)
    (hg : g * prm.forceStrength ≠ 0)
    (hnoclamp : |g * prm.forceStrength| / (d1 * d1) ≤ prm.maxForce) :
    norm3 (calculateForce prm (0, 0, 0) (d2, 0, 0) g) <
      norm3 (calculateForce prm (0, 0, 0) (d1, 0, 0) g) := by
  have hd1 : 0 < d1 := lt_of_lt_of_le hmin h1
  have hd2 : 0 < d2 := hd1.trans h12
  rw [norm3_calculateForce_xaxis prm g d2 hd2 (h1.trans h12.le),
    norm3_calculateForce_xaxis prm g d1 hd1 h1]
  have habs : 0 < |g * prm.forceStrength| := abs_pos.mpr hg
  have hlt : |g * prm.forceStrength| / (d2 * d2) <
      |g * prm.forceStrength| / (d1 * d1) :=
    div_lt_div_of_pos_left habs (mul_pos hd1 hd1)
      (by nlinarith : d1 * d1 < d2 * d2)
  have hfm1 : g * prm.forceStrength / (d1 * d1) ≠ 0 :=
    div_ne_zero hg (mul_pos hd1 hd1).ne'
  have hfm2 : g * prm.forceStrength / (d2 * d2) ≠ 0 :=
    div_ne_zero hg (mul_pos hd2 hd2).ne'
  have hsign : ∀ x : ℝ, x ≠ 0 → |Real.sign x| = 1 := by
    intro x hx
    rcases lt_trichotomy x 0 with h | h | h
    · rw [Real.sign_of_neg h]; norm_num
    · exact absurd h hx
    · rw [Real.sign_of_pos h]; norm_num
  rw [abs_mul (Real.sign (g * prm.forceStrength / (d2 * d2))) _,
    abs_mul (Real.sign (g * prm.forceStrength / (d1 * d1))) _,
    hsign _ hfm1, hsign _ hfm2, one_mul, one_mul]
  rw [min_eq_left hnoclamp, min_eq_left (hlt.le.trans hnoclamp)]
  rw [abs_of_nonneg (div_nonneg (abs_nonneg (g * prm.forceStrength))
      (mul_pos hd2 hd2).le),
    abs_of_nonneg (div_nonneg (abs_nonneg (g * prm.forceStrength))
      (mul_pos hd1 hd1).le)]
  exact hlt

/-- Witness for `c6_inverse_square_monotone` at the default parameters with
`g = 1`, `d1 = 1`, `d2 = 2` (unclamped regime). -/
theorem c6_inverse_square_monotone_witness :
    norm3 (calculateForce defaultParams (0, 0, 0) (2, 0, 0) 1) <
      norm3 (calculateForce defaultParams (0, 0, 0) (1, 0, 0) 1) :=
  c6_inverse_square_monotone defaultParams 1 1 2
    (by norm_num [defaultParams]) (by norm_num [defaultParams]) (by norm_num)
    (by norm_num [defaultParams])
    (by rw [abs_of_pos (by norm_num [defaultParams])]; norm_num [defaultParams])

/-! ## Force accumulation (`PhysicsExpansion.applyPhysicsStep`, first phase) -/

/-- Componentwise vector addition (`force.x += ...` etc.). -/
def vadd (a b : Vec3 ℝ) : Vec3 ℝ := (a.1 + b.1, a.2.1 + b.2.1, a.2.2 + b.2.2)

/-- Componentwise vector subtraction. -/
def vsub (a b : Vec3 ℝ) : Vec3 ℝ := (a.1 - b.1, a.2.1 - b.2.1, a.2.2 - b.2.2)

/-- Componentwise vector negation. -/
def vneg (a : Vec3 ℝ) : Vec3 ℝ := (-a.1, -a.2.1, -a.2.2)

/-- Point update of an index-keyed vector map (`this.forces.set(i, v)`). -/
def updMap (f : ℕ → Vec3 ℝ) (i : ℕ) (v : Vec3 ℝ) : ℕ → Vec3 ℝ :=
  fun q => if q = i then v else f q

/-- Reading the growth-rate map with the source's `|| 0` default
(`this.growthRates.get(cellIndexB) || 0`); the map has unique keys. -/
def lookupRate (rates : List (ℕ × ℝ)) (i : ℕ) : ℝ :=
  ((rates.find? (fun p => p.1 == i)).map Prod.snd).getD 0

/-- Body of the `neighborsA.forEach(cellIndexB => ...)` loop of
`applyPhysicsStep`: compute `forceAtoB` from the source's rate, add it to
`B`, subtract it from `A` (Newton's third law), and if `B` is itself active
(`|growthRateB| > 0.001`) additionally apply `forceBtoA` to `A` and its
reaction to `B`. -/
noncomputable def stepNeighbor (prm : PhysicsParams) (rates : List (ℕ × ℝ))
    (points : List Pt) (cellIndexA : ℕ) (growthRateA : ℝ)
    (forces : ℕ → Vec3 ℝ) (cellIndexB : ℕ) : ℕ → Vec3 ℝ :=
  let growthRateB := lookupRate rates cellIndexB
  let pointA := points.getD cellIndexA (0, 0, 0)
  let pointB := points.getD cellIndexB (0, 0, 0)
  let forceAtoB := calculateForce prm pointA pointB growthRateA
  let forceBtoA := if 0.001 < |growthRateB| then
      calculateForce prm pointB pointA growthRateB
    else (0, 0, 0)
  let f1 := updMap forces cellIndexB (vadd (forces cellIndexB) forceAtoB)
  let f2 := updMap f1 cellIndexA (vsub (f1 cellIndexA) forceAtoB)
  if 0.001 < |growthRateB| then
    let f3 := updMap f2 cellIndexA (vadd (f2 cellIndexA) forceBtoA)
    updMap f3 cellIndexB (vsub (f3 cellIndexB) forceBtoA)
  else f2

/-- One iteration of the outer loop over `cellsWithGrowth`: a source cell
whose rate is below the `0.001` activity cutoff contributes nothing
(`continue`); otherwise its forces are accumulated against each cached
neighbor in order. -/
noncomputable def stepSource (prm : PhysicsParams) (rates : List (ℕ × ℝ))
    (points : List Pt) (voronoiCells : List (List (Vec3 ℝ)))
    (forces : ℕ → Vec3 ℝ) (entry : ℕ × ℝ) : ℕ → Vec3 ℝ :=
  if |entry.2| < 0.001 then forces
  else (neighborList voronoiCells entry.1).foldl
    (stepNeighbor prm rates points entry.1 entry.2) forces

/-- The whole force-accumulation phase of `applyPhysicsStep`: forces start
at zero for every index and each entry of the growth-rate map acts as a
source in insertion order. -/
noncomputable def computeForces (prm : PhysicsParams) (rates : List (ℕ × ℝ))
    (points : List Pt) (voronoiCells : List (List (Vec3 ℝ))) : ℕ → Vec3 ℝ :=
  rates.foldl (stepSource prm rates points voronoiCells) (fun _ => (0, 0, 0))

/-- In a two-cell tessellation the insertion list is the single symmetric
pair, present iff the two cells share at least two vertices. -/
lemma neighborInsertions_two (cells : List (List (Vec3 ℝ)))
    (h : cells.length = 2) :
    neighborInsertions cells =
      if 2 ≤ countSharedVertices (cells.getD 0 []) (cells.getD 1 []) then
        [(0, 1), (1, 0)]
      else [] := by
  simp only [neighborInsertions, h]
  rw [show List.range 2 = [0, 1] from rfl]
  simp only [List.flatMap_cons, List.flatMap_nil]
  norm_num

/-- In a two-cell tessellation, cell `0`'s neighbor list is `[1]` or
empty. -/
lemma neighborList_two (cells : List (List (Vec3 ℝ))) (h : cells.length = 2) :
    neighborList cells 0 = [] ∨ neighborList cells 0 = [1] := by
  rw [neighborList, neighborInsertions_two cells h]
  split_ifs
  · right; rfl
  · left; rfl

/-- C4: for a two-cell system in which only cell 0 is active (rate `g`,
cell 1 absent from the rate map, i.e. rate 0), the force accumulated on the
passive cell by the force phase of `applyPhysicsStep` is exactly the
negation of the force accumulated on the active cell. -/
theorem c4_newton_third_law (prm : PhysicsParams) (g : ℝ) (pA pB : Pt)
    (cells : List (List (Vec3 ℝ))) (h : cells.length = 2) :
    computeForces prm [(0, g)] [pA, pB] cells 1 =
      vneg (computeForces prm [(0, g)] [pA, pB] cells 0) := by
  by_cases hg : |g| < 0.001
  · simp [computeForces, stepSource, hg, vneg]
  · rcases neighborList_two cells h with hnl | hnl
    · simp [computeForces, stepSource, hg, hnl, vneg]
    · have hlook : lookupRate [(0, g)] 1 = 0 := rfl
      simp only [computeForces, List.foldl, stepSource, if_neg hg, hnl,
        stepNeighbor, hlook, abs_zero]
      rw [if_neg (by norm_num : ¬ ((0.001 : ℝ) < 0))]
      simp [updMap, vadd, vsub, vneg]

/-- A concrete two-cell tessellation over `ℝ` sharing two vertices. -/
def twoCellsR : List (List (Vec3 ℝ)) :=
  [[(0, 0, 0), (0, 1, 0)], [(0, 0, 0), (0, 1, 0)]]

/-- Witness for `c4_newton_third_law` at concrete positions, rate and
cells. -/
theorem c4_newton_third_law_witness :
    computeForces defaultParams [(0, 1)] [(0, 0, 0), (1, 0, 0)] twoCellsR 1 =
      vneg (computeForces defaultParams [(0, 1)]
        [(0, 0, 0), (1, 0, 0)] twoCellsR 0) :=
  c4_newton_third_law defaultParams 1 (0, 0, 0) (1, 0, 0) twoCellsR rfl

/-- A key absent from the rate map reads as `0`. -/
lemma lookupRate_eq_zero (rates : List (ℕ × ℝ)) (i : ℕ)
    (h : i ∉ rates.map Prod.fst) : lookupRate rates i = 0 := by
  induction rates with
  | nil => rfl
  | cons p l ih =>
    simp only [List.map_cons, List.mem_cons] at h
    push_neg at h
    simp only [lookupRate, List.find?]
    rw [show (p.1 == i) = false from beq_eq_false_iff_ne.mpr (by omega)]
    exact ih h.2

/-- Reading a map whose head key differs from the query skips the head. -/
lemma lookupRate_cons_ne (p : ℕ × ℝ) (l : List (ℕ × ℝ)) (b : ℕ)
    (h : p.1 ≠ b) : lookupRate (p :: l) b = lookupRate l b := by
  simp only [lookupRate, List.find?]
  rw [show (p.1 == b) = false from beq_eq_false_iff_ne.mpr h]

/-- Reading an association list around an inserted entry whose key is fresh:
at the fresh key the inserted value is read, elsewhere reads agree. -/
lemma lookupRate_append_middle (l1 l2 : List (ℕ × ℝ)) (i : ℕ) (g : ℝ) (b : ℕ)
    (hb : b ≠ i) :
    lookupRate (l1 ++ (i, g) :: l2) b = lookupRate (l1 ++ l2) b := by
  induction l1 with
  | nil => exact lookupRate_cons_ne (i, g) l2 b (by simpa using hb.symm)
  | cons p l ih =>
    by_cases hp : p.1 = b
    · simp only [List.cons_append, lookupRate, List.find?,
        show (p.1 == b) = true from beq_iff_eq.mpr hp]
    · rw [List.cons_append, List.cons_append, lookupRate_cons_ne p _ b hp,
        lookupRate_cons_ne p _ b hp]
      exact ih

/-- `stepNeighbor` only consults the rate map at the neighbor index, and
only through the `> 0.001` activity gate, so two maps that agree there (or
are both inactive there) yield the same accumulation. -/
lemma stepNeighbor_congr (prm : PhysicsParams) (r r' : List (ℕ × ℝ))
    (points : List Pt) (a : ℕ) (ga : ℝ) (f : ℕ → Vec3 ℝ) (b : ℕ)
    (hb : lookupRate r b = lookupRate r' b ∨
      (¬ 0.001 < |lookupRate r b| ∧ ¬ 0.001 < |lookupRate r' b|)) :
    stepNeighbor prm r points a ga f b = stepNeighbor prm r' points a ga f b := by
  rcases hb with hb | ⟨h1, h2⟩
  · simp only [stepNeighbor, hb]
  · simp only [stepNeighbor, if_neg h1, if_neg h2]

/-- Pointwise `stepNeighbor` congruence lifts to the neighbor fold. -/
lemma foldl_stepNeighbor_congr (prm : PhysicsParams) (r r' : List (ℕ × ℝ))
    (points : List Pt) (a : ℕ) (ga : ℝ)
    (hcong : ∀ b, lookupRate r b = lookupRate r' b ∨
      (¬ 0.001 < |lookupRate r b| ∧ ¬ 0.001 < |lookupRate r' b|))
    (l : List ℕ) (f : ℕ → Vec3 ℝ) :
    l.foldl (stepNeighbor prm r points a ga) f =
      l.foldl (stepNeighbor prm r' points a ga) f := by
  induction l generalizing f with
  | nil => rfl
  | cons b l ih =>
    simp only [List.foldl_cons]
    rw [stepNeighbor_congr prm r r' points a ga f b (hcong b)]
    exact ih _

/-- Pointwise congruence lifts to a whole source iteration. -/
lemma stepSource_congr (prm : PhysicsParams) (r r' : List (ℕ × ℝ))
    (points : List Pt) (cells : List (List (Vec3 ℝ)))
    (hcong : ∀ b, lookupRate r b = lookupRate r' b ∨
      (¬ 0.001 < |lookupRate r b| ∧ ¬ 0.001 < |lookupRate r' b|))
    (f : ℕ → Vec3 ℝ) (entry : ℕ × ℝ) :
    stepSource prm r points cells f entry = stepSource prm r' points cells f entry := by
  simp only [stepSource]
  split_ifs with h
  · rfl
  · exact foldl_stepNeighbor_congr prm r r' points entry.1 entry.2 hcong _ f

/-- Pointwise congruence lifts to the source fold over any entry list. -/
lemma foldl_stepSource_congr (prm : PhysicsParams) (r r' : List (ℕ × ℝ))
    (points : List Pt) (cells : List (List (Vec3 ℝ)))
    (hcong : ∀ b, lookupRate r b = lookupRate r' b ∨
      (¬ 0.001 < |lookupRate r b| ∧ ¬ 0.001 < |lookupRate r' b|))
    (l : List (ℕ × ℝ)) (f : ℕ → Vec3 ℝ) :
    l.foldl (stepSource prm r points cells) f =
      l.foldl (stepSource prm r' points cells) f := by
  induction l generalizing f with
  | nil => rfl
  | cons e l ih =>
    simp only [List.foldl_cons]
    rw [stepSource_congr prm r r' points cells hcong f e]
    exact ih _

/-- C10: a stored growth rate `g` with `|g| < 0.001` is silently ignored by
the force accumulation of `applyPhysicsStep`: with the entry present
anywhere in the rate map (its key fresh, as `Map` keys are), every
accumulated force equals the one computed with the entry absent — exactly
as if the rate were zero. -/
theorem c10_small_rate_inactive (prm : PhysicsParams) (l1 l2 : List (ℕ × ℝ))
    (i : ℕ) (g : ℝ) (points : List Pt) (cells : List (List (Vec3 ℝ))) (q : ℕ)
    (hg : |g| < 0.001) (hkey : i ∉ (l1 ++ l2).map Prod.fst) :
    computeForces prm (l1 ++ (i, g) :: l2) points cells q =
      computeForces prm (l1 ++ l2) points cells q := by
  have hlookmid : lookupRate (l1 ++ (i, g) :: l2) i = g := by
    have h1 : i ∉ l1.map Prod.fst := fun hmem => hkey (by
      rw [List.map_append, List.mem_append]; exact Or.inl hmem)
    induction l1 with
    | nil => simp [lookupRate, List.find?]
    | cons p l ih =>
      have hp : p.1 ≠ i := by
        intro hpi
        exact h1 (by rw [List.map_cons, hpi]; exact List.mem_cons_self i _)
      rw [List.cons_append, lookupRate_cons_ne p _ i hp]
      exact ih (fun hmem => hkey (by
        simp only [List.map_cons, List.map_append, List.mem_cons,
          List.mem_append] at hmem ⊢
        tauto)) (fun hmem => by
        exact absurd (by simpa using hmem) (by
          simp only [List.map_cons, List.mem_cons] at h1
          push_neg at h1
          simpa using h1.2))
  have hcong : ∀ b, lookupRate (l1 ++ (i, g) :: l2) b = lookupRate (l1 ++ l2) b ∨
      (¬ 0.001 < |lookupRate (l1 ++ (i, g) :: l2) b| ∧
       ¬ 0.001 < |lookupRate (l1 ++ l2) b|) := by
    intro b
    by_cases hb : b = i
    · subst hb
      right
      constructor
      · rw [hlookmid]; exact not_lt.mpr hg.le
      · rw [lookupRate_eq_zero _ _ hkey]
        norm_num
    · exact Or.inl (lookupRate_append_middle l1 l2 i g b hb)
  have hmain : computeForces prm (l1 ++ (i, g) :: l2) points cells =
      computeForces prm (l1 ++ l2) points cells := by
    simp only [computeForces, List.foldl_append, List.foldl_cons]
    rw [show stepSource prm (l1 ++ (i, g) :: l2) points cells
        (l1.foldl (stepSource prm (l1 ++ (i, g) :: l2) points cells)
          (fun _ => (0, 0, 0))) (i, g) =
        l1.foldl (stepSource prm (l1 ++ (i, g) :: l2) points cells)
          (fun _ => (0, 0, 0)) from by
      simp only [stepSource, if_pos hg]]
    rw [foldl_stepSource_congr prm (l1 ++ (i, g) :: l2) (l1 ++ l2) points cells
        hcong l1 (fun _ => (0, 0, 0)),
      foldl_stepSource_congr prm (l1 ++ (i, g) :: l2) (l1 ++ l2) points cells
        hcong l2]
  rw [hmain]

/-- Witness for `c10_small_rate_inactive`: a concrete rate `1/2000` on cell
1 changes no accumulated force. -/
theorem c10_small_rate_inactive_witness :
    computeForces defaultParams ([(0, 1)] ++ (1, 1 / 2000) :: [])
        [(0, 0, 0), (1, 0, 0)] twoCellsR 0 =
      computeForces defaultParams ([(0, 1)] ++ [])
        [(0, 0, 0), (1, 0, 0)] twoCellsR 0 :=
  c10_small_rate_inactive defaultParams [(0, 1)] [] 1 (1 / 2000)
    [(0, 0, 0), (1, 0, 0)] twoCellsR 0
    (by rw [abs_of_pos (by norm_num)]; norm_num) (by simp)

/-! ## Integration (`PhysicsExpansion.applyPhysicsStep`, second phase) -/

/-- Mutable state of the physics engine that survives a step: the velocity
map (zero default, matching `|| {x:0,y:0,z:0}`) and the growth-rate map. -/
structure EngineState where
  velocities : ℕ → Vec3 ℝ
  growthRates : List (ℕ × ℝ)

/-- The per-step statistics record returned by `applyPhysicsStep`. -/
structure StepResult where
  updatedPoints : List Pt
  maxDisplacement : ℝ
  averageForce : ℝ

/-- Accumulator of the `generatorPoints.forEach` integration loop. -/
structure IntegState where
  updatedPoints : List Pt
  velocities : ℕ → Vec3 ℝ
  maxDisplacement : ℝ
  totalForce : ℝ

/-- One iteration of the integration loop: read the accumulated force,
update the velocity (`v = (v + F·dt) · damping` componentwise), move the
point by `v·dt`, and track `maxDisplacement = max(..., |v|·dt)` and the
running force-magnitude total. -/
noncomputable def integrateCell (prm : PhysicsParams) (forces : ℕ → Vec3 ℝ)
    (dt : ℝ) (points : List Pt) (acc : IntegState) (index : ℕ) : IntegState :=
  let point := points.getD index (0, 0, 0)
  let force := forces index
  let velocity := acc.velocities index
  let v : Vec3 ℝ := ((velocity.1 + force.1 * dt) * prm.damping,
    (velocity.2.1 + force.2.1 * dt) * prm.damping,
    (velocity.2.2 + force.2.2 * dt) * prm.damping)
  { updatedPoints := acc.updatedPoints ++
      [(point.1 + v.1 * dt, point.2.1 + v.2.1 * dt, point.2.2 + v.2.2 * dt)]
    velocities := updMap acc.velocities index v
    maxDisplacement := max acc.maxDisplacement (norm3 v * dt)
    totalForce := acc.totalForce + norm3 force }

/-- `PhysicsExpansion.applyPhysicsStep`: accumulate forces, then integrate
every generator point, returning the updated engine state and the step
statistics with `averageForce = totalForce / generatorPoints.length`. -/
noncomputable def applyPhysicsStep (prm : PhysicsParams) (st : EngineState)
    (generatorPoints : List Pt) (voronoiCells : List (List (Vec3 ℝ)))
    (dt : ℝ) : EngineState × StepResult :=
  let forces := computeForces prm st.growthRates generatorPoints voronoiCells
  let acc := (List.range generatorPoints.length).foldl
    (integrateCell prm forces dt generatorPoints)
    { updatedPoints := [], velocities := st.velocities,
      maxDisplacement := 0, totalForce := 0 }
  (⟨acc.velocities, st.growthRates⟩,
   ⟨acc.updatedPoints, acc.maxDisplacement,
    acc.totalForce / generatorPoints.length⟩)

/-- The closed-form velocity a cell holds after one integration sub-step. -/
noncomputable def integratedVelocity (prm : PhysicsParams)
    (v0 forces : ℕ → Vec3 ℝ) (dt : ℝ) (i : ℕ) : Vec3 ℝ :=
  (((v0 i).1 + (forces i).1 * dt) * prm.damping,
   ((v0 i).2.1 + (forces i).2.1 * dt) * prm.damping,
   ((v0 i).2.2 + (forces i).2.2 * dt) * prm.damping)

/-- Componentwise scaling of a vector. -/
def vscale (c : ℝ) (v : Vec3 ℝ) : Vec3 ℝ := (v.1 * c, v.2.1 * c, v.2.2 * c)

/-- Magnitude scales with a non-negative scalar. -/
lemma norm3_vscale (c : ℝ) (hc : 0 ≤ c) (v : Vec3 ℝ) :
    norm3 (vscale c v) = norm3 v * c := by
  simp only [norm3, vscale]
  rw [show v.1 * c * (v.1 * c) + v.2.1 * c * (v.2.1 * c) +
      v.2.2 * c * (v.2.2 * c) =
      (v.1 * v.1 + v.2.1 * v.2.1 + v.2.2 * v.2.2) * (c * c) by ring]
  rw [Real.sqrt_mul (by
    exact add_nonneg (add_nonneg (mul_self_nonneg _) (mul_self_nonneg _))
      (mul_self_nonneg _)), Real.sqrt_mul_self hc]

/-- Inductive characterisation of the integration fold: running statistics
are the max / sum of the per-cell closed forms, and each velocity slot is
written exactly once. -/
lemma integ_foldl_spec (prm : PhysicsParams) (forces : ℕ → Vec3 ℝ) (dt : ℝ)
    (points : List Pt) (v0 : ℕ → Vec3 ℝ) (n : ℕ) :
    ((List.range n).foldl (integrateCell prm forces dt points)
        ⟨[], v0, 0, 0⟩).maxDisplacement =
      ((List.range n).map
        (fun i => norm3 (integratedVelocity prm v0 forces dt i) * dt)).foldl max 0 ∧
    ((List.range n).foldl (integrateCell prm forces dt points)
        ⟨[], v0, 0, 0⟩).totalForce =
      ((List.range n).map (fun i => norm3 (forces i))).sum ∧
    ∀ q, ((List.range n).foldl (integrateCell prm forces dt points)
        ⟨[], v0, 0, 0⟩).velocities q =
      if q < n then integratedVelocity prm v0 forces dt q else v0 q := by
  induction n with
  | zero => simp
  | succ n ih =>
    obtain ⟨ihmax, ihtot, ihvel⟩ := ih
    rw [List.range_succ]
    simp only [List.foldl_append, List.foldl_cons, List.foldl_nil,
      List.map_append, List.map_cons, List.map_nil]
    have hveln : ((List.range n).foldl (integrateCell prm forces dt points)
        ⟨[], v0, 0, 0⟩).velocities n = v0 n := by
      rw [ihvel n, if_neg (lt_irrefl n)]
    refine ⟨?_, ?_, ?_⟩
    · simp only [integrateCell, hveln, ihmax]
      rfl
    · simp only [integrateCell, ihtot]
      rw [List.sum_append]
      simp
    · intro q
      simp only [integrateCell, updMap]
      by_cases hq : q = n
      · subst hq
        rw [if_pos rfl, if_pos (Nat.lt_succ_self q), hveln]
        rfl
      · rw [if_neg hq, ihvel q]
        by_cases hlt : q < n
        · rw [if_pos hlt, if_pos (Nat.lt_succ_of_lt hlt)]
        · rw [if_neg hlt, if_neg (by omega)]

/-- C9 (amended): per sub-step, `maxDisplacement` is the largest
`|velocity·dt|` across all cells as claimed, but `averageForce` is the sum
of ALL per-cell force magnitudes divided by the number of points — cells
with zero accumulated force are NOT excluded from the mean (the optimized
variant's `calculateAverageForce` is the one that excludes them). -/
theorem c9_substep_stats (prm : PhysicsParams) (st : EngineState)
    (points : List Pt) (cells : List (List (Vec3 ℝ))) (dt : ℝ) (hdt : 0 ≤ dt) :
    (applyPhysicsStep prm st points cells dt).2.maxDisplacement =
      ((List.range points.length).map (fun i => norm3 (vscale dt
        (integratedVelocity prm st.velocities
          (computeForces prm st.growthRates points cells) dt i)))).foldl max 0 ∧
    (applyPhysicsStep prm st points cells dt).2.averageForce =
      ((List.range points.length).map (fun i =>
        norm3 (computeForces prm st.growthRates points cells i))).sum /
        points.length := by
  obtain ⟨hmax, htot, -⟩ := integ_foldl_spec prm
    (computeForces prm st.growthRates points cells) dt points st.velocities
    points.length
  constructor
  · simp only [applyPhysicsStep]
    rw [hmax]
    simp only [norm3_vscale dt hdt]
  · simp only [applyPhysicsStep]
    rw [htot]

/-- Witness for `c9_substep_stats` at a concrete state and input. -/
theorem c9_substep_stats_witness :
    (applyPhysicsStep defaultParams ⟨fun _ => (0, 0, 0), [(0, 1)]⟩
        [(0, 0, 0), (1, 0, 0)] twoCellsR 0.016).2.maxDisplacement =
      ((List.range 2).map (fun i => norm3 (vscale 0.016
        (integratedVelocity defaultParams (fun _ => (0, 0, 0))
          (computeForces defaultParams [(0, 1)] [(0, 0, 0), (1, 0, 0)] twoCellsR)
          0.016 i)))).foldl max 0 :=
  (c9_substep_stats defaultParams ⟨fun _ => (0, 0, 0), [(0, 1)]⟩
    [(0, 0, 0), (1, 0, 0)] twoCellsR 0.016 (by norm_num)).1

/-- Follows the spec's words for `averageForce`: the mean of the NON-ZERO
force magnitudes across cells (cells with zero accumulated force excluded),
as the optimized variant's `calculateAverageForce` computes it.  Used to
compare the claimed behaviour against `applyPhysicsStep`. -/
noncomputable def averageForceSpec (cellForces : List (Vec3 ℝ)) : ℝ :=
  ((cellForces.map norm3).filter (fun m => decide (m ≠ 0))).sum /
    ((cellForces.map norm3).filter (fun m => decide (m ≠ 0))).length

/-- Magnitude of a vector on the x-axis. -/
lemma norm3_x (x : ℝ) : norm3 (x, 0) = |x| := by
  simp [norm3, Real.sqrt_mul_self_eq_abs]

/-- Magnitude of the zero vector. -/
lemma norm3_zero : norm3 0 = 0 := by
  simp [norm3]

/-- Three concrete generator points. -/
def threePts : List Pt := [(0, 0, 0), (1, 0, 0), (0, 3, 0)]

/-- Three concrete cells: cells 0 and 1 share two vertices, cell 2 is
isolated. -/
def threeCellsR : List (List (Vec3 ℝ)) :=
  [[(0, 0, 0), (0, 1, 0)], [(0, 0, 0), (0, 1, 0)], [(9, 9, 9)]]

/-- The unit-separation force under default parameters saturates the clamp
at `1/2` along the x-axis. -/
lemma calculateForce_unit_x :
    calculateForce defaultParams ((0 : ℝ), (0 : ℝ), (0 : ℝ))
      ((1 : ℝ), (0 : ℝ), (0 : ℝ)) 1 = (1 / 2, 0, 0) := by
  have h1 : ((1 : ℝ) - 0) * ((1 : ℝ) - 0) + ((0 : ℝ) - 0) * ((0 : ℝ) - 0) +
      ((0 : ℝ) - 0) * ((0 : ℝ) - 0) = 1 := by norm_num
  simp only [calculateForce, h1, Real.sqrt_one]
  rw [if_neg (by norm_num [defaultParams])]
  rw [Real.sign_of_pos (show (0 : ℝ) <
    1 * defaultParams.forceStrength / (1 * 1) by norm_num [defaultParams])]
  rw [abs_of_pos (show (0 : ℝ) <
    1 * defaultParams.forceStrength / (1 * 1) by norm_num [defaultParams])]
  rw [min_eq_left (by norm_num [defaultParams])]
  norm_num [defaultParams]

/-- Concrete neighbor structure of `threeCellsR`. -/
lemma neighborInsertions_threeCells :
    neighborInsertions threeCellsR = [(0, 1), (1, 0)] := by
  norm_num [neighborInsertions, threeCellsR, countSharedVertices,
    List.countP_cons, List.countP_nil, List.any_cons, List.any_nil,
    show List.range 3 = [0, 1, 2] from rfl, List.flatMap_cons,
    List.flatMap_nil]

/-- Cell 0's neighbor list in `threeCellsR`. -/
lemma neighborList_threeCells : neighborList threeCellsR 0 = [1] := by
  simp [neighborList, neighborInsertions_threeCells]

/-- The accumulated forces in the three-cell scenario with only cell 0
active at rate 1: cell 1 takes `(1/2, 0, 0)`, cell 0 the reaction
`(−1/2, 0, 0)`, cell 2 nothing. -/
lemma computeForces_threeCells (q : ℕ) :
    computeForces defaultParams [(0, 1)] threePts threeCellsR q =
      if q = 1 then ((1 : ℝ) / 2, (0 : ℝ), (0 : ℝ))
      else if q = 0 then (-(1 / 2), 0, 0) else (0, 0, 0) := by
  have hb : ¬ (0.001 : ℝ) < |(0 : ℝ)| := by norm_num
  simp only [computeForces, List.foldl_cons, List.foldl_nil, stepSource]
  rw [if_neg (by norm_num : ¬ |(1 : ℝ)| < 0.001)]
  rw [neighborList_threeCells]
  simp only [List.foldl_cons, List.foldl_nil, stepNeighbor,
    show lookupRate [(0, 1)] 1 = 0 from rfl, if_neg hb,
    show threePts.getD 0 (0, 0, 0) = ((0 : ℝ), (0 : ℝ), (0 : ℝ)) from rfl,
    show threePts.getD 1 (0, 0, 0) = ((1 : ℝ), (0 : ℝ), (0 : ℝ)) from rfl,
    calculateForce_unit_x, updMap, vadd, vsub]
  split_ifs <;> simp_all

/-- C9 (counterexample): in the three-cell scenario the step returns
`averageForce = (1/2 + 1/2 + 0)/3 = 1/3`, while the mean of the non-zero
force magnitudes is `1/2` — `applyPhysicsStep` does not exclude zero-force
cells from the mean. -/
theorem c9_average_force_counterexample :
    (applyPhysicsStep defaultParams ⟨fun _ => (0, 0, 0), [(0, 1)]⟩
        threePts threeCellsR 0.016).2.averageForce ≠
      averageForceSpec ((List.range threePts.length).map
        (computeForces defaultParams [(0, 1)] threePts threeCellsR)) := by
  obtain ⟨-, htot, -⟩ := integ_foldl_spec defaultParams
    (computeForces defaultParams [(0, 1)] threePts threeCellsR) 0.016 threePts
    (fun _ => (0, 0, 0)) threePts.length
  have hn1 : norm3 ((1 : ℝ) / 2, 0) = 1 / 2 := by
    rw [norm3_x, abs_of_pos (by norm_num : (0 : ℝ) < 1 / 2)]
  have hn2 : norm3 ((-(1 / 2) : ℝ), 0) = 1 / 2 := by
    rw [norm3_x, abs_neg, abs_of_pos (by norm_num : (0 : ℝ) < 1 / 2)]
  have hsum : (applyPhysicsStep defaultParams ⟨fun _ => (0, 0, 0), [(0, 1)]⟩
      threePts threeCellsR 0.016).2.averageForce = 1 / 3 := by
    simp only [applyPhysicsStep]
    rw [htot]
    rw [show List.range threePts.length = [0, 1, 2] from rfl]
    simp only [List.map_cons, List.map_nil, computeForces_threeCells]
    norm_num [hn1, hn2, norm3_zero, threePts]
  have hspec : averageForceSpec ((List.range threePts.length).map
      (computeForces defaultParams [(0, 1)] threePts threeCellsR)) = 1 / 2 := by
    rw [show List.range threePts.length = [0, 1, 2] from rfl]
    simp only [List.map_cons, List.map_nil, computeForces_threeCells]
    norm_num [averageForceSpec, hn1, hn2, norm3_zero, List.filter_cons]
  rw [hsum, hspec]
  norm_num

/-! ## GrowthOrchestrator (`PhysicsGrowthSystem`) -/

/-- `PhysicsGrowthSystem.config`. -/
structure GrowthConfig where
  threshold : ℝ
  mode : Mode
  growthPower : ℝ
  normalize : Bool
  baseGrowthRate : ℝ
  forceStrength : ℝ
  damping : ℝ
  maxForce : ℝ
  equilibriumPrecision : ℝ
  maxPhysicsSteps : ℕ
  stepMode : StepMode

/-- The engine parameters the constructor copies out of the config;
`minDistance` keeps the engine's own `0.01`. -/
def configParams (cfg : GrowthConfig) : PhysicsParams :=
  { forceStrength := cfg.forceStrength, damping := cfg.damping,
    maxForce := cfg.maxForce, minDistance := 0.01 }

/-- `PhysicsGrowthSystem.calculateGrowthSignals` over `ℝ`: classify each
score (`growthDecision`), keep only cells with positive magnitude, apply
the non-linear map `magnitude^growthPower * (±1)` (real exponentiation for
`Math.pow`), then the normalize/scale pass (`scaleSignals`). -/
noncomputable def calculateGrowthSignals (cfg : GrowthConfig)
    (cellScores : List ℝ) : List (ℕ × ℝ) :=
  scaleSignals cfg.normalize cfg.baseGrowthRate
    ((List.range cellScores.length).filterMap (fun i =>
      let d := growthDecision cfg.mode cfg.threshold (cellScores.getD i 0)
      if 0 < d.2 then
        some (i, d.2 ^ cfg.growthPower * (if d.1 then (1 : ℝ) else -1))
      else none))

/-- `PhysicsExpansion.setGrowthRate` on the association-list map: a zero
rate deletes the key, otherwise the key is updated in place or appended. -/
noncomputable def setGrowthRate (rates : List (ℕ × ℝ)) (cellIndex : ℕ)
    (rate : ℝ) : List (ℕ × ℝ) :=
  if rate = 0 then rates.filter (fun p => p.1 != cellIndex)
  else if rates.any (fun p => p.1 == cellIndex) then
    rates.map (fun p => if p.1 = cellIndex then (cellIndex, rate) else p)
  else rates ++ [(cellIndex, rate)]

/-- `PhysicsGrowthSystem.applyGrowthSignals`: clear all growth rates, then
set each signalled rate. -/
noncomputable def applyGrowthSignals (st : EngineState)
    (growthSignals : List (ℕ × ℝ)) : EngineState :=
  { st with growthRates :=
      growthSignals.foldl (fun rates p => setGrowthRate rates p.1 p.2) [] }

/-- `PhysicsExpansion.reset`: forces, velocities and growth rates cleared
(the transient force map is rebuilt from zero each step anyway). -/
def resetEngine (_st : EngineState) : EngineState :=
  ⟨fun _ => (0, 0, 0), []⟩

/-- The external tessellation data consumed by `buildVoronoiCells`. -/
structure Computation where
  tetrahedra : Option (List (List ℕ))
  barycenters : Option (List (Option Pt))

/-- `PhysicsGrowthSystem.buildVoronoiCells`: one (initially empty) cell per
point; every tetrahedron pushes its barycenter (when present) onto the
cells of its vertex indices (in-range indices only, the `if
(cells[vertexIndex])` guard). -/
def buildVoronoiCells (points : List Pt) (computation : Computation) :
    List (List Pt) :=
  let cells0 := points.map (fun _ => ([] : List Pt))
  match computation.tetrahedra, computation.barycenters with
  | some tets, some barys =>
      tets.enum.foldl (fun cells idxTet =>
        match barys.getD idxTet.1 none with
        | none => cells
        | some barycenter =>
            idxTet.2.foldl (fun cs vertexIndex =>
              if vertexIndex < cs.length then
                cs.set vertexIndex (cs.getD vertexIndex [] ++ [barycenter])
              else cs) cells) cells0
  | _, _ => cells0

/-- The record produced by `balanceForces`. -/
structure BalanceResult where
  updatedPoints : List Pt
  maxDisplacement : ℝ
  totalDisplacement : ℝ
  physicsSteps : ℕ
  equilibriumReached : Bool

/-- The `while (physicsSteps < maxPhysicsSteps && !equilibriumReached)`
loop of `balanceForces`, with the remaining step budget as fuel; exits
early with `equilibriumReached` when `maxDisplacement` falls below the
precision, or after one step in manual mode. -/
noncomputable def balanceLoop (cfg : GrowthConfig) (cells : List (List Pt)) :
    ℕ → EngineState → List Pt → ℝ → ℝ → ℕ → EngineState × BalanceResult
  | 0, st, pts, maxD, totalD, steps => (st, ⟨pts, maxD, totalD, steps, false⟩)
  | fuel + 1, st, pts, maxD, totalD, steps =>
      let r := applyPhysicsStep (configParams cfg) st pts cells 0.016
      let maxD2 := max maxD r.2.maxDisplacement
      let totalD2 := totalD + r.2.maxDisplacement
      if r.2.maxDisplacement < cfg.equilibriumPrecision then
        (r.1, ⟨r.2.updatedPoints, maxD2, totalD2, steps + 1, true⟩)
      else if cfg.stepMode = StepMode.manual then
        (r.1, ⟨r.2.updatedPoints, maxD2, totalD2, steps + 1, false⟩)
      else
        balanceLoop cfg cells fuel r.1 r.2.updatedPoints maxD2 totalD2 (steps + 1)

/-- `PhysicsGrowthSystem.balanceForces`: build the cells from the
computation and run the physics loop from a deep copy of the points. -/
noncomputable def balanceForces (cfg : GrowthConfig) (st : EngineState)
    (points : List Pt) (computation : Computation) :
    EngineState × BalanceResult :=
  balanceLoop cfg (buildVoronoiCells points computation)
    cfg.maxPhysicsSteps st points 0 0 0

/-- The analysis-results argument of `applyGrowth`; `cellScores` may be
absent (the JS falsy guard). -/
structure AnalysisResults where
  cellScores : Option (List ℝ)

/-- `PhysicsGrowthSystem.applyGrowth`: on missing analysis results or a
missing `cellScores` field, warn (returned flag `true`) and return the
input points with the engine untouched; otherwise reset, compute and load
growth signals, and balance forces. -/
noncomputable def applyGrowth (cfg : GrowthConfig) (st : EngineState)
    (points : List Pt) (computation : Computation)
    (analysisResults : Option AnalysisResults) :
    EngineState × List Pt × Bool :=
  match analysisResults with
  | none => (st, points, true)
  | some ar =>
    match ar.cellScores with
    | none => (st, points, true)
    | some cellScores =>
      let st1 := resetEngine st
      let growthSignals := calculateGrowthSignals cfg cellScores
      let st2 := applyGrowthSignals st1 growthSignals
      let result := balanceForces cfg st2 points computation
      (result.1, result.2.updatedPoints, false)

/-- C8: whenever the analysis results are missing or carry no `cellScores`,
`applyGrowth` skips the cycle: the warning is surfaced, the engine state is
returned unmodified (no reset, no physics step), and the input positions
come back unchanged. -/
theorem c8_missing_scores_skip (cfg : GrowthConfig) (st : EngineState)
    (points : List Pt) (computation : Computation)
    (analysisResults : Option AnalysisResults)
    (h : analysisResults = none ∨
      ∃ ar, analysisResults = some ar ∧ ar.cellScores = none) :
    applyGrowth cfg st points computation analysisResults =
      (st, points, true) := by
  rcases h with h | ⟨ar, h, hcs⟩
  · subst h
    rfl
  · subst h
    simp only [applyGrowth, hcs]

/-- The `PhysicsGrowthSystem` constructor defaults. -/
def defaultConfig : GrowthConfig :=
  { threshold := 5, mode := Mode.more_grow_both, growthPower := 1.5,
    normalize := true, baseGrowthRate := 5.0, forceStrength := 5.0,
    damping := 0.85, maxForce := 0.2, equilibriumPrecision := 0.0005,
    maxPhysicsSteps := 100, stepMode := StepMode.manual }

/-- Witness for `c8_missing_scores_skip` at a concrete call with no
analysis results. -/
theorem c8_missing_scores_skip_witness :
    applyGrowth defaultConfig ⟨fun _ => (0, 0, 0), []⟩ [(1, 2, 3)]
        ⟨none, none⟩ none =
      (⟨fun _ => (0, 0, 0), []⟩, [(1, 2, 3)], true) :=
  c8_missing_scores_skip defaultConfig ⟨fun _ => (0, 0, 0), []⟩ [(1, 2, 3)]
    ⟨none, none⟩ none (Or.inl rfl)

end FabricOfSpace
